import Mathlib

/-!
Shallow embedding of the TS-ES-Node module loader (src/index.ts): the
format resolver `resolve`, the source compiler `transpileTypeScriptToModule`,
the caching `linker`, and the `dynamicInstantiate` entry point.  External
collaborators (filesystem, the TypeScript engine, the WHATWG URL parser,
globbing, native `import`, the VM link step) are modelled as an explicit
environment record `Env`; the loader state (module cache, id allocation,
compiler-invocation log) is threaded explicitly.
-/

namespace TSESNode

/-- A JS runtime value as the loader observes it: its truthiness and the
own-enumerable properties an object spread would copy. -/
inductive JSValue where
  | mk (truthy : Bool) (props : List (String × JSValue))

def JSValue.truthy : JSValue → Bool
  | .mk t _ => t

def JSValue.props : JSValue → List (String × JSValue)
  | .mk _ p => p

/-- A JS object as a key-ordered association list (JS objects have unique
string keys; lookup takes the first binding). -/
abbrev JSObject := List (String × JSValue)

def lookupProp : JSObject → String → Option JSValue
  | [], _ => none
  | (k0, v) :: rest, k => if k0 = k then some v else lookupProp rest k

/-- JS object spread `\x7b...a, ...b\x7d`: keys of `a` first (values overridden
by `b` where present), then the keys of `b` not already in `a`. -/
def spreadMerge (a b : JSObject) : JSObject :=
  (a.map fun kv =>
    match lookupProp b kv.1 with
    | some v => (kv.1, v)
    | none => kv)
  ++ b.filter fun kv => (lookupProp a kv.1).isNone

/-- `if (link.default) link = \x7b ...link.default, ...link \x7d` -/
def flattenNamespace (link : JSObject) : JSObject :=
  match lookupProp link "default" with
  | some d => if d.truthy then spreadMerge d.props link else link
  | none => link

inductive DiagnosticCategory where
  | warning
  | error
  | suggestion
  | message
deriving DecidableEq

structure Diagnostic where
  category : DiagnosticCategory
  code : Nat
  messageText : String
deriving DecidableEq

/-- `ts.CompilerOptions` as built by the loader: the tsconfig record spread
first, then the forced `target`/`module` overrides; `typeRoots` is set only
for the diagnostic program. -/
structure CompilerOptions where
  base : List (String × String)
  target : String
  module : String
  typeRoots : Option (List String) := none
deriving DecidableEq

structure TranspileOutput where
  outputText : String
  diagnostics : List Diagnostic
deriving DecidableEq

/-- The observable parts of a WHATWG `URL` object. -/
structure URLRec where
  protocol : String
  pathname : String
  href : String
deriving DecidableEq

/-- Node's `ResolvedModule`: the record the resolve hook returns. -/
structure ResolvedModule where
  url : String
  format : String
deriving DecidableEq

structure SourceTextMod where
  id : Nat
  url : String
  sourceText : String
deriving DecidableEq

structure SyntheticMod where
  id : Nat
  exportNames : List String
  exportsBag : JSObject

inductive BuiltModule where
  | sourceText (m : SourceTextMod)
  | synthetic (m : SyntheticMod)

/-- `parentModule : \x7b url: string \x7d` as received by the linker. -/
structure ParentRef where
  url : String

inductive LoaderError where
  | urlError (input : String)
  | ioError (url : String)
  | tsError (diagnostics : List Diagnostic)
  | importError (url : String)
  | invalidImportType
deriving DecidableEq

/-- Process-wide mutable loader state: `moduleMap`, a fresh-object counter
(standing in for JS object identity), the log of compiler invocations, and
the root path recorded via `setRootPath`. -/
structure LoaderState where
  moduleMap : List (String × SourceTextMod)
  nextId : Nat
  compileCalls : List String
  activeRoot : Option String

def initState : LoaderState :=
  { moduleMap := [], nextId := 0, compileCalls := [], activeRoot := none }

def mapLookup : List (String × SourceTextMod) → String → Option SourceTextMod
  | [], _ => none
  | (k0, v) :: rest, k => if k0 = k then some v else mapLookup rest k

def mapSet : List (String × SourceTextMod) → String → SourceTextMod →
    List (String × SourceTextMod)
  | [], k, v => [(k, v)]
  | (k0, v0) :: rest, k, v =>
    if k0 = k then (k, v) :: rest else (k0, v0) :: mapSet rest k v

/-- External collaborators of the loader, as pure functions. -/
structure Env where
  baseURL : String
  parseURL : String → Option URLRec
  newURL : String → String → Option URLRec
  fileURLToPath : String → String
  readFile : String → Option String
  getTSConfig : String → List (String × String)
  preEmitDiagnostics : List String → CompilerOptions → List Diagnostic
  transpileModule : String → CompilerOptions → TranspileOutput
  importNative : String → Option JSObject
  vmLink : SourceTextMod → LoaderState → Except LoaderError Unit × LoaderState
  globby : String → String → List String

/-! ### Node `path` helpers (posix semantics) -/

def lastIndexOfChar (target : Char) : List Char → Option Nat
  | [] => none
  | c :: rest =>
    match lastIndexOfChar target rest with
    | some i => some (i + 1)
    | none => if c = target then some 0 else none

/-- Node `path.posix.dirname`. -/
def dirname (p : String) : String :=
  let cs := p.toList
  if cs = [] then "." else
  let hasRoot : Bool := cs.head? = some '/'
  let trimmed := (cs.reverse.dropWhile (fun c => c = '/')).reverse
  match lastIndexOfChar '/' trimmed with
  | none => if hasRoot then "/" else "."
  | some 0 => "/"
  | some 1 => if hasRoot then "//" else String.mk (trimmed.take 1)
  | some e => String.mk (trimmed.take e)

/-- Node `path.posix.extname`. -/
def extname (p : String) : String :=
  let cs := (p.toList.reverse.dropWhile (fun c => c = '/')).reverse
  let base :=
    match lastIndexOfChar '/' cs with
    | some i => cs.drop (i + 1)
    | none => cs
  if base = ['.', '.'] then "" else
  match lastIndexOfChar '.' base with
  | none => ""
  | some 0 => ""
  | some i => String.mk (base.drop i)

/-! ### The resolver -/

/-- `String.startsWith`, computed structurally on the character lists. -/
def strStartsWith (s pre : String) : Bool :=
  pre.toList.isPrefixOf s.toList

/-- Drop the first `n` characters of a string, structurally. -/
def strDrop (s : String) (n : Nat) : String :=
  String.mk (s.toList.drop n)

/-- Chars matched by the `.` of a JS regular expression (anything but a
line terminator). -/
def isRegexAny (c : Char) : Bool :=
  !(c = '\n' || c = '\r' || c = '\u2028' || c = '\u2029')

/-- `new RegExp('^.\x7b0,2\x7d[/]').test specifier`: a `/` at index 0, 1 or 2,
preceded only by non-line-terminator characters. -/
def modTesterTest (specifier : String) : Bool :=
  match specifier.toList with
  | [] => false
  | c0 :: rest0 =>
    c0 = '/' ||
    (isRegexAny c0 &&
      match rest0 with
      | [] => false
      | c1 :: rest1 =>
        c1 = '/' ||
        (isRegexAny c1 &&
          match rest1 with
          | [] => false
          | c2 :: _ => c2 = '/'))

def TS_EXTENSIONS : List String := [".ts", ".tsx"]

/-- The glob pattern `${specifier}\x7b${TS_EXTENSIONS.join(',')}\x7d`. -/
def tsGlobPattern (specifier : String) : String :=
  specifier ++ "\x7b" ++ String.intercalate "," TS_EXTENSIONS ++ "\x7d"

/-- The `resolve` loader hook (src/index.ts lines 147-194). -/
def resolve (env : Env) (specifier : String) (parentModuleURL : String)
    (defaultResolverFn : Option (String → String → ResolvedModule)) :
    Except LoaderError ResolvedModule :=
  if !modTesterTest specifier && !strStartsWith specifier "file:" then
    match defaultResolverFn with
    | some f => .ok (f specifier parentModuleURL)
    | none => .ok { format := "module", url := specifier }
  else
    match env.newURL specifier parentModuleURL with
    | none => .error (.urlError specifier)
    | some resolved =>
      let ext := extname resolved.pathname
      let inferred : Option ResolvedModule :=
        if ext = "" && resolved.protocol = "file:" then
          let possibleFiles :=
            env.globby (tsGlobPattern specifier)
              (dirname (env.fileURLToPath parentModuleURL))
          match possibleFiles with
          | [onlyFile] => some { url := "file://" ++ onlyFile, format := "dynamic" }
          | _ => none
        else none
      match inferred with
      | some r => .ok r
      | none =>
        if TS_EXTENSIONS.contains ext then
          .ok { format := "dynamic", url := resolved.href }
        else
          .ok { url := resolved.href, format := "module" }

/-! ### The source compiler -/

/-- `transpileTypeScriptToModule` (src/index.ts lines 29-87).  The
invocation is logged on entry; `setRootPath` is recorded in `activeRoot`;
a fresh `SourceTextModule` gets a default `vm:module(i)` URL which is then
overwritten with the input URL (line 84). -/
def transpileTypeScriptToModule (env : Env) (sourcePathURLString : String)
    (s : LoaderState) : Except LoaderError SourceTextMod × LoaderState :=
  let s := { s with compileCalls := s.compileCalls ++ [sourcePathURLString] }
  match env.parseURL sourcePathURLString with
  | none => (.error (.urlError sourcePathURLString), s)
  | some sourceFileURL =>
    let sourceFilePath := env.fileURLToPath sourceFileURL.href
    match env.readFile sourceFileURL.href with
    | none => (.error (.ioError sourceFileURL.href), s)
    | some sourceFile =>
      let s := { s with activeRoot := some (dirname sourceFilePath) }
      let tsConfig := env.getTSConfig (dirname sourceFilePath)
      let compilerOptions : CompilerOptions :=
        { base := tsConfig, target := "ESNext", module := "ESNext" }
      let diagnostics :=
        env.preEmitDiagnostics [sourceFilePath]
          { compilerOptions with typeRoots := some [] }
      let transpiledModule := env.transpileModule sourceFile compilerOptions
      if diagnostics.length ≠ 0 then
        (.error (.tsError diagnostics), s)
      else
        let sourceTextModule : SourceTextMod :=
          { id := s.nextId
            url := "vm:module(" ++ toString s.nextId ++ ")"
            sourceText := transpiledModule.outputText }
        let sourceTextModule := { sourceTextModule with url := sourcePathURLString }
        (.ok sourceTextModule, { s with nextId := s.nextId + 1 })

/-! ### The linker / module cache -/

/-- `linker` (src/index.ts lines 89-122). -/
def linker (env : Env) (specifier : String) (parentModule : ParentRef)
    (s : LoaderState) : Except LoaderError BuiltModule × LoaderState :=
  match resolve env specifier parentModule.url none with
  | .error e => (.error e, s)
  | .ok r =>
    if r.format = "commonjs" || r.format = "module" then
      match env.importNative r.url with
      | none => (.error (.importError r.url), s)
      | some link0 =>
        let link := flattenNamespace link0
        let linkKeys := link.map Prod.fst
        (.ok (.synthetic
            { id := s.nextId, exportNames := linkKeys, exportsBag := link }),
          { s with nextId := s.nextId + 1 })
    else if r.format = "dynamic" then
      match mapLookup s.moduleMap r.url with
      | some cachedModule => (.ok (.sourceText cachedModule), s)
      | none =>
        match transpileTypeScriptToModule env r.url s with
        | (.error e, s1) => (.error e, s1)
        | (.ok newModule, s1) =>
          (.ok (.sourceText newModule),
            { s1 with moduleMap := mapSet s1.moduleMap r.url newModule })
    else (.error .invalidImportType, s)

/-! ### The top-level entry point -/

/-- Result of `dynamicInstantiate`: either the `\x7bexports, execute\x7d`
handle, or `process.exit(0)` after `console.error(err)`. -/
inductive InstantiateOutcome where
  | ok (exportNames : List String) (entry : SourceTextMod)
  | exited (code : Nat) (logged : LoaderError)

/-- `dynamicInstantiate` (src/index.ts lines 124-139). -/
def dynamicInstantiate (env : Env) (url : String) (s : LoaderState) :
    InstantiateOutcome × LoaderState :=
  match transpileTypeScriptToModule env url s with
  | (.error err, s1) => (.exited 0 err, s1)
  | (.ok sourceTextModule, s1) =>
    match env.vmLink sourceTextModule s1 with
    | (.error err, s2) => (.exited 0 err, s2)
    | (.ok _, s2) => (.ok [] sourceTextModule, s2)

/-! ### A concrete environment for evaluating the loader on small inputs -/

/-- A small model of `new URL(s)` restricted to `file://` URLs. -/
def wURL (s : String) : Option URLRec :=
  if strStartsWith s "file://" then
    some { protocol := "file:", pathname := strDrop s 7, href := s }
  else none

/-- A small model of `new URL(spec, base)` for `file://` bases. -/
def wNewURL (spec base : String) : Option URLRec :=
  if strStartsWith spec "file://" then wURL spec
  else if strStartsWith base "file://" then
    let basePath := strDrop base 7
    let p :=
      if strStartsWith spec "/" then spec
      else dirname basePath ++ "/" ++ (if strStartsWith spec "./" then strDrop spec 2 else spec)
    some { protocol := "file:", pathname := p, href := "file://" ++ p }
  else none

def errDiag : Diagnostic :=
  { category := .error, code := 2322, messageText := "Type mismatch" }

def suggDiag : Diagnostic :=
  { category := .suggestion, code := 80001, messageText := "File may be converted" }

def envW : Env where
  baseURL := "file:///root/"
  parseURL := wURL
  newURL := wNewURL
  fileURLToPath := fun href => strDrop href 7
  readFile := fun href =>
    if href = "file:///root/app.ts" then some "const x: number = 1;"
    else if href = "file:///root/bad.ts" then some "const y: number = nope;"
    else if href = "file:///root/sugg.ts" then some "const z = 3;"
    else none
  getTSConfig := fun _ => []
  preEmitDiagnostics := fun roots _ =>
    if roots = ["/root/bad.ts"] then [errDiag]
    else if roots = ["/root/sugg.ts"] then [suggDiag]
    else []
  transpileModule := fun text _ => { outputText := "js:" ++ text, diagnostics := [] }
  importNative := fun url =>
    if url = "file:///root/native.mjs" then
      some [("default", .mk true [("a", .mk true []), ("c", .mk false [])]),
            ("a", .mk false []), ("b", .mk true [])]
    else if url = "file:///root/falsy.mjs" then
      some [("default", .mk false [("x", .mk true [])]), ("b", .mk true [])]
    else none
  vmLink := fun _ s => (.ok (), s)
  globby := fun pattern cwd =>
    if pattern = tsGlobPattern "./mod" && cwd = "/root" then ["/root/mod.ts"]
    else []

def mainRef : ParentRef := { url := "file:///root/main.ts" }

example : dirname "/root/main.ts" = "/root" := by decide
example : extname "/root/app.ts" = ".ts" := by decide
example : extname "/root/mod" = "" := by decide
example : modTesterTest "ab/x" = true := by decide
example : modTesterTest "lodash" = false := by decide
example : modTesterTest "./app.ts" = true := by decide

example :
    resolve envW "./app.ts" "file:///root/main.ts" none =
      .ok { url := "file:///root/app.ts", format := "dynamic" } := by rfl

example :
    resolve envW "lodash" "file:///root/main.ts" none =
      .ok { url := "lodash", format := "module" } := by rfl

example :
    resolve envW "./mod" "file:///root/main.ts" none =
      .ok { url := "file:///root/mod.ts", format := "dynamic" } := by rfl

example :
    resolve envW "./lib.mjs" "file:///root/main.ts" none =
      .ok { url := "file:///root/lib.mjs", format := "module" } := by rfl

/-! ### Basic lemmas -/

instance instDecEqExceptLoader {ε α : Type} [DecidableEq ε] [DecidableEq α] :
    DecidableEq (Except ε α) := fun x y =>
  match x, y with
  | .ok a, .ok b =>
    if h : a = b then isTrue (by rw [h])
    else isFalse (by intro hh; cases hh; exact h rfl)
  | .error a, .error b =>
    if h : a = b then isTrue (by rw [h])
    else isFalse (by intro hh; cases hh; exact h rfl)
  | .ok _, .error _ => isFalse (by intro hh; cases hh)
  | .error _, .ok _ => isFalse (by intro hh; cases hh)

theorem mapLookup_mapSet_self (m : List (String × SourceTextMod)) (k : String)
    (v : SourceTextMod) : mapLookup (mapSet m k v) k = some v := by
  induction m with
  | nil => simp [mapSet, mapLookup]
  | cons hd tl ih =>
    obtain ⟨k0, v0⟩ := hd
    by_cases h : k0 = k
    · simp [mapSet, mapLookup, h]
    · simp [mapSet, mapLookup, h, ih]

theorem mapLookup_mem {m : List (String × SourceTextMod)} {k : String}
    {v : SourceTextMod} (h : mapLookup m k = some v) : (k, v) ∈ m := by
  induction m with
  | nil => simp [mapLookup] at h
  | cons hd tl ih =>
    obtain ⟨k0, v0⟩ := hd
    by_cases hk : k0 = k
    · subst hk
      simp [mapLookup] at h
      simp [h]
    · simp [mapLookup, hk] at h
      exact List.mem_cons_of_mem _ (ih h)

theorem mem_mapSet {m : List (String × SourceTextMod)} {k : String}
    {v : SourceTextMod} {p : String × SourceTextMod} (h : p ∈ mapSet m k v) :
    p = (k, v) ∨ p ∈ m := by
  induction m with
  | nil => simpa [mapSet] using h
  | cons hd tl ih =>
    obtain ⟨k0, v0⟩ := hd
    by_cases hk : k0 = k
    · simp [mapSet, hk] at h
      rcases h with h | h
      · exact Or.inl (by simp [h])
      · exact Or.inr (List.mem_cons_of_mem _ h)
    · simp [mapSet, hk] at h
      rcases h with h | h
      · exact Or.inr (by simp [h])
      · rcases ih h with h1 | h1
        · exact Or.inl h1
        · exact Or.inr (List.mem_cons_of_mem _ h1)

/-- The compiler step never touches the module cache. -/
theorem transpile_moduleMap (env : Env) (u : String) (s : LoaderState) :
    (transpileTypeScriptToModule env u s).2.moduleMap = s.moduleMap := by
  unfold transpileTypeScriptToModule
  split
  · rfl
  · split
    · rfl
    · dsimp only
      split <;> rfl

/-- The compiler step logs exactly one invocation, at entry. -/
theorem transpile_compileCalls (env : Env) (u : String) (s : LoaderState) :
    (transpileTypeScriptToModule env u s).2.compileCalls =
      s.compileCalls ++ [u] := by
  unfold transpileTypeScriptToModule
  split
  · rfl
  · split
    · rfl
    · dsimp only
      split <;> rfl

/-- A successfully compiled module carries the input URL (line 84 of the
source overwrites the default URL). -/
theorem transpile_ok_url {env : Env} {u : String} {s : LoaderState}
    {m : SourceTextMod} {s1 : LoaderState}
    (h : transpileTypeScriptToModule env u s = (.ok m, s1)) : m.url = u := by
  unfold transpileTypeScriptToModule at h
  split at h
  · simp at h
  · split at h
    · simp at h
    · dsimp only at h
      split at h
      · simp at h
      · simp at h
        rw [← h.1]

/-! ### Claim C2 -/

/-- Claim C2 (counterexample): the specifier `ab/x` does not start with
`./`, `../` or `/` and is not a `file:` URL, yet `resolve` does not treat
it as a bare package reference: the regex `^.\x7b0,2\x7d[/]` matches any `/`
at index 0, 1 or 2, so `ab/x` is resolved against the referrer instead of
being returned unchanged. -/
theorem resolve_bare_counterexample :
    resolve envW "ab/x" "file:///root/main.ts" none ≠
        .ok { url := "ab/x", format := "module" } ∧
    resolve envW "ab/x" "file:///root/main.ts" none =
        .ok { url := "file:///root/ab/x", format := "module" } := by
  constructor
  · intro h
    have h2 : resolve envW "ab/x" "file:///root/main.ts" none =
        .ok { url := "file:///root/ab/x", format := "module" } := by rfl
    rw [h2] at h
    simp at h
  · rfl

/-- Claim C2 (amended): for every specifier on which the test
`^.\x7b0,2\x7d[/]` fails (no `/` occurs at index 0, 1 or 2 preceded only by
non-line-terminator characters) and that does not start with `file:`,
`resolve` treats it as a bare package reference: if a fallback resolver is
supplied it returns the fallback's result unchanged, otherwise it returns
`\x7b url := specifier, format := "module" \x7d`. -/
theorem resolve_bare_specifier (env : Env) (specifier parentModuleURL : String)
    (defaultResolverFn : Option (String → String → ResolvedModule))
    (hmod : modTesterTest specifier = false)
    (hfile : strStartsWith specifier "file:" = false) :
    resolve env specifier parentModuleURL defaultResolverFn =
      match defaultResolverFn with
      | some f => .ok (f specifier parentModuleURL)
      | none => .ok { format := "module", url := specifier } := by
  unfold resolve
  rw [hmod, hfile]
  rfl

/-- Witness for `resolve_bare_specifier` at the bare specifier `lodash`,
with and without a fallback resolver. -/
theorem resolve_bare_specifier_witness :
    resolve envW "lodash" "file:///root/main.ts" none =
        .ok { format := "module", url := "lodash" } ∧
    resolve envW "lodash" "file:///root/main.ts"
        (some fun spec _ => { url := "pkg:" ++ spec, format := "commonjs" }) =
        .ok { url := "pkg:lodash", format := "commonjs" } :=
  ⟨resolve_bare_specifier envW "lodash" "file:///root/main.ts" none rfl rfl,
   resolve_bare_specifier envW "lodash" "file:///root/main.ts"
     (some fun spec _ => { url := "pkg:" ++ spec, format := "commonjs" }) rfl rfl⟩

/-! ### Lemmas about JS object flattening -/

theorem lookupProp_eq_none_iff (o : JSObject) (k : String) :
    lookupProp o k = none ↔ k ∉ o.map Prod.fst := by
  induction o with
  | nil => simp [lookupProp]
  | cons hd tl ih =>
    obtain ⟨k0, v0⟩ := hd
    by_cases h : k0 = k
    · simp [lookupProp, h]
    · simp [lookupProp, h, ih, Ne.symm h]

theorem lookupProp_isSome_iff (o : JSObject) (k : String) :
    (∃ v, lookupProp o k = some v) ↔ k ∈ o.map Prod.fst := by
  rcases h : lookupProp o k with _ | v
  · rw [lookupProp_eq_none_iff] at h
    simp [h]
  · have : k ∈ o.map Prod.fst := by
      by_contra hk
      rw [← lookupProp_eq_none_iff] at hk
      rw [h] at hk
      cases hk
    simp [this]

theorem lookupProp_append (xs ys : JSObject) (k : String) :
    lookupProp (xs ++ ys) k =
      match lookupProp xs k with
      | some v => some v
      | none => lookupProp ys k := by
  induction xs with
  | nil => simp [lookupProp]
  | cons hd tl ih =>
    obtain ⟨k0, v0⟩ := hd
    by_cases h : k0 = k
    · simp [lookupProp, h]
    · simp [lookupProp, h, ih]

theorem lookupProp_filter (p : String × JSValue → Bool) (o : JSObject) (k : String)
    (hp : ∀ kv : String × JSValue, kv.1 = k → p kv = true) :
    lookupProp (o.filter p) k = lookupProp o k := by
  induction o with
  | nil => simp
  | cons hd tl ih =>
    obtain ⟨k0, v0⟩ := hd
    by_cases h : k0 = k
    · subst h
      have hpk := hp (k0, v0) rfl
      simp [List.filter_cons, hpk, lookupProp]
    · by_cases hph : p (k0, v0)
      · simp [List.filter_cons, hph, lookupProp, h, ih]
      · simp [List.filter_cons, hph, lookupProp, h, ih]

/-- Looking a key up in the mapped first operand of a spread. -/
theorem lookupProp_spread_left (a b : JSObject) (k : String) :
    lookupProp
        (a.map fun kv =>
          match lookupProp b kv.1 with
          | some v => (kv.1, v)
          | none => kv) k =
      (lookupProp a k).map fun v =>
        match lookupProp b k with
        | some w => w
        | none => v := by
  induction a with
  | nil => simp [lookupProp]
  | cons hd tl ih =>
    obtain ⟨k0, v0⟩ := hd
    by_cases h : k0 = k
    · subst h
      rcases hb : lookupProp b k0 with _ | w <;> simp [lookupProp, hb]
    · rcases hb : lookupProp b k0 with _ | w <;> simp [lookupProp, h, hb, ih]

theorem keys_spread_left (a b : JSObject) :
    (a.map fun kv =>
        match lookupProp b kv.1 with
        | some v => (kv.1, v)
        | none => kv).map Prod.fst = a.map Prod.fst := by
  induction a with
  | nil => simp
  | cons hd tl ih =>
    obtain ⟨k0, v0⟩ := hd
    rcases hb : lookupProp b k0 with _ | w <;> simp [hb, ih]

/-- Key membership in a spread: exactly the union of the two key sets. -/
theorem mem_keys_spreadMerge (a b : JSObject) (k : String) :
    k ∈ (spreadMerge a b).map Prod.fst ↔
      k ∈ a.map Prod.fst ∨ k ∈ b.map Prod.fst := by
  unfold spreadMerge
  rw [List.map_append, List.mem_append, keys_spread_left]
  constructor
  · rintro (h | h)
    · exact Or.inl h
    · right
      rcases List.mem_map.1 h with ⟨kv, hkv, rfl⟩
      exact List.mem_map.2 ⟨kv, List.mem_of_mem_filter hkv, rfl⟩
  · rintro (h | h)
    · exact Or.inl h
    · by_cases ha : k ∈ a.map Prod.fst
      · exact Or.inl ha
      · right
        rcases List.mem_map.1 h with ⟨kv, hkv, rfl⟩
        refine List.mem_map.2 ⟨kv, List.mem_filter.2 ⟨hkv, ?_⟩, rfl⟩
        rw [← lookupProp_eq_none_iff] at ha
        simp [ha]

/-- In a spread, a key present in the second operand gets the second
operand's value (the later spread wins). -/
theorem lookupProp_spreadMerge_right (a b : JSObject) (k : String)
    (hb : k ∈ b.map Prod.fst) :
    lookupProp (spreadMerge a b) k = lookupProp b k := by
  unfold spreadMerge
  rw [lookupProp_append, lookupProp_spread_left]
  rcases hw : lookupProp b k with _ | w
  · rw [lookupProp_eq_none_iff] at hw
    exact absurd hb hw
  · rcases ha : lookupProp a k with _ | v
    · rw [lookupProp_eq_none_iff] at ha
      dsimp only [Option.map_none]
      rw [lookupProp_filter]
      · exact hw ▸ rfl
      · intro kv hkv
        rw [hkv, ← lookupProp_eq_none_iff] at *
        simp [ha]
    · simp [hw]

/-! ### Linker branch lemmas -/

/-- Unfolding the linker on a `dynamic` (typed-source) resolution. -/
theorem linker_dynamic_eq (env : Env) (specifier : String) (p : ParentRef)
    (s : LoaderState) (r : ResolvedModule)
    (hres : resolve env specifier p.url none = .ok r)
    (hfmt : r.format = "dynamic") :
    linker env specifier p s =
      match mapLookup s.moduleMap r.url with
      | some cachedModule => (.ok (.sourceText cachedModule), s)
      | none =>
        match transpileTypeScriptToModule env r.url s with
        | (.error e, s1) => (.error e, s1)
        | (.ok newModule, s1) =>
          (.ok (.sourceText newModule),
            { s1 with moduleMap := mapSet s1.moduleMap r.url newModule }) := by
  unfold linker
  rw [hres]
  dsimp only
  rw [hfmt]
  rfl

/-- Unfolding the linker on a native (`commonjs`/`module`) resolution. -/
theorem linker_native_eq (env : Env) (specifier : String) (p : ParentRef)
    (s : LoaderState) (r : ResolvedModule)
    (hres : resolve env specifier p.url none = .ok r)
    (hfmt : r.format = "commonjs" ∨ r.format = "module") :
    linker env specifier p s =
      match env.importNative r.url with
      | none => (.error (.importError r.url), s)
      | some link0 =>
        (.ok (.synthetic
            { id := s.nextId
              exportNames := (flattenNamespace link0).map Prod.fst
              exportsBag := flattenNamespace link0 }),
          { s with nextId := s.nextId + 1 }) := by
  unfold linker
  rw [hres]
  dsimp only
  rcases hfmt with h | h <;> rw [h] <;> rfl

/-- Unfolding the linker on an unrecognized format. -/
theorem linker_invalid_eq (env : Env) (specifier : String) (p : ParentRef)
    (s : LoaderState) (r : ResolvedModule)
    (hres : resolve env specifier p.url none = .ok r)
    (h1 : r.format ≠ "commonjs") (h2 : r.format ≠ "module")
    (h3 : r.format ≠ "dynamic") :
    linker env specifier p s = (.error .invalidImportType, s) := by
  unfold linker
  rw [hres]
  dsimp only
  simp [h1, h2, h3]

/-- Unfolding the linker on a resolution failure. -/
theorem linker_resolve_error_eq (env : Env) (specifier : String) (p : ParentRef)
    (s : LoaderState) (e : LoaderError)
    (hres : resolve env specifier p.url none = .error e) :
    linker env specifier p s = (.error e, s) := by
  unfold linker
  rw [hres]

/-! ### Claim C1 -/

/-- Claim C1: for a typed-source resolved URL, resolving and linking the
same URL twice in sequence through the linker returns the identical built
module object both times, and the source compilation step is invoked at
most once for that URL across the two calls. -/
theorem linker_sequential_cache (env : Env) (spec1 spec2 : String)
    (p1 p2 : ParentRef) (s0 : LoaderState) (r1 r2 : ResolvedModule)
    (hres1 : resolve env spec1 p1.url none = .ok r1)
    (hfmt1 : r1.format = "dynamic")
    (hres2 : resolve env spec2 p2.url none = .ok r2)
    (hfmt2 : r2.format = "dynamic")
    (hsame : r2.url = r1.url)
    (m1 m2 : BuiltModule) (s1 s2 : LoaderState)
    (h1 : linker env spec1 p1 s0 = (.ok m1, s1))
    (h2 : linker env spec2 p2 s1 = (.ok m2, s2)) :
    m1 = m2 ∧ s2.compileCalls.count r1.url ≤ s0.compileCalls.count r1.url + 1 := by
  rw [linker_dynamic_eq env spec1 p1 s0 r1 hres1 hfmt1] at h1
  rw [linker_dynamic_eq env spec2 p2 s1 r2 hres2 hfmt2, hsame] at h2
  rcases hc : mapLookup s0.moduleMap r1.url with _ | c
  · rw [hc] at h1
    rcases ht : transpileTypeScriptToModule env r1.url s0 with ⟨res, st⟩
    rw [ht] at h1
    cases res with
    | error e => simp at h1
    | ok nm =>
      simp only [Prod.mk.injEq, Except.ok.injEq] at h1
      obtain ⟨h1m, h1s⟩ := h1
      subst h1m
      subst h1s
      rw [show ({ st with moduleMap := mapSet st.moduleMap r1.url nm } :
            LoaderState).moduleMap = mapSet st.moduleMap r1.url nm from rfl,
          mapLookup_mapSet_self] at h2
      simp only [Prod.mk.injEq, Except.ok.injEq] at h2
      obtain ⟨h2m, h2s⟩ := h2
      subst h2m
      subst h2s
      have hcc : st.compileCalls = s0.compileCalls ++ [r1.url] := by
        have h := transpile_compileCalls env r1.url s0
        rw [ht] at h
        exact h
      refine ⟨rfl, ?_⟩
      simp [hcc, List.count_append]
  · rw [hc] at h1
    simp only [Prod.mk.injEq, Except.ok.injEq] at h1
    obtain ⟨h1m, h1s⟩ := h1
    subst h1m
    subst h1s
    rw [hc] at h2
    simp only [Prod.mk.injEq, Except.ok.injEq] at h2
    obtain ⟨h2m, h2s⟩ := h2
    subst h2m
    subst h2s
    exact ⟨rfl, Nat.le_succ _⟩

def appURL : String := "file:///root/app.ts"

def appMod : SourceTextMod :=
  { id := 0, url := appURL, sourceText := "js:const x: number = 1;" }

/-- Loader state after the first successful link of `./app.ts`. -/
def s1W : LoaderState :=
  { moduleMap := [(appURL, appMod)], nextId := 1,
    compileCalls := [appURL], activeRoot := some "/root" }

/-- Witness for `linker_sequential_cache`: linking `./app.ts` twice from
the initial state returns the same built module, with one compile. -/
theorem linker_sequential_cache_witness :
    BuiltModule.sourceText appMod = BuiltModule.sourceText appMod ∧
    s1W.compileCalls.count "file:///root/app.ts" ≤
      initState.compileCalls.count "file:///root/app.ts" + 1 :=
  linker_sequential_cache envW "./app.ts" "./app.ts" mainRef mainRef initState
    { url := "file:///root/app.ts", format := "dynamic" }
    { url := "file:///root/app.ts", format := "dynamic" }
    rfl rfl rfl rfl rfl
    (BuiltModule.sourceText appMod) (BuiltModule.sourceText appMod) s1W s1W
    rfl rfl

/-! ### Claim C3 -/

/-- Claim C3: for an extension-less file-scheme resolution, if globbing the
referrer's directory for the specifier with a recognized typed-source
extension (`.ts`/`.tsx`) yields exactly one file, `resolve` returns format
`dynamic` with that single file's URL; with zero or two-or-more candidates
it returns the native `module` classification with the URL resolved
against the referrer. -/
theorem resolve_extension_inference (env : Env)
    (specifier parentModuleURL : String) (resolved : URLRec)
    (hnb : (!modTesterTest specifier && !strStartsWith specifier "file:") = false)
    (hurl : env.newURL specifier parentModuleURL = some resolved)
    (hext : extname resolved.pathname = "")
    (hproto : resolved.protocol = "file:") :
    (∀ onlyFile,
      env.globby (tsGlobPattern specifier)
          (dirname (env.fileURLToPath parentModuleURL)) = [onlyFile] →
      resolve env specifier parentModuleURL none =
        .ok { url := "file://" ++ onlyFile, format := "dynamic" }) ∧
    (∀ possibleFiles,
      env.globby (tsGlobPattern specifier)
          (dirname (env.fileURLToPath parentModuleURL)) = possibleFiles →
      possibleFiles.length ≠ 1 →
      resolve env specifier parentModuleURL none =
        .ok { url := resolved.href, format := "module" }) := by
  constructor
  · intro onlyFile hglob
    unfold resolve
    rw [hnb, hurl]
    dsimp only
    rw [hext, hproto, hglob]
    rfl
  · intro possibleFiles hglob hlen
    unfold resolve
    rw [hnb, hurl]
    dsimp only
    rw [hext, hproto, hglob]
    rcases possibleFiles with _ | ⟨a, _ | ⟨b, rest⟩⟩
    · rfl
    · exact absurd rfl hlen
    · rfl

/-- Witness for `resolve_extension_inference`: `./mod` has exactly one
candidate (`/root/mod.ts`) and resolves as typed-source; `./nomatch` has
none and falls through to the native classification. -/
theorem resolve_extension_inference_witness :
    resolve envW "./mod" "file:///root/main.ts" none =
        .ok { url := "file://" ++ "/root/mod.ts", format := "dynamic" } ∧
    resolve envW "./nomatch" "file:///root/main.ts" none =
        .ok { url := "file:///root/nomatch", format := "module" } :=
  ⟨(resolve_extension_inference envW "./mod" "file:///root/main.ts"
      { protocol := "file:", pathname := "/root/mod", href := "file:///root/mod" }
      rfl rfl rfl rfl).1 "/root/mod.ts" rfl,
   (resolve_extension_inference envW "./nomatch" "file:///root/main.ts"
      { protocol := "file:", pathname := "/root/nomatch", href := "file:///root/nomatch" }
      rfl rfl rfl rfl).2 [] rfl (by decide)⟩

/-! ### Claim C4 -/

/-- Claim C4 (counterexample): the diagnostic pass can report a
suggestion-level diagnostic and no error-level one, yet
`transpileTypeScriptToModule` still fails (the source checks
`diagnostics.length`, not the diagnostic category), refuting the claim
that compilation fails only when an error-level diagnostic is reported. -/
theorem transpile_error_level_counterexample :
    suggDiag.category ≠ DiagnosticCategory.error ∧
    (transpileTypeScriptToModule envW "file:///root/sugg.ts" initState).1 =
      .error (.tsError [suggDiag]) :=
  ⟨by decide, by rfl⟩

/-- Claim C4 (amended): the compile step fails with a `CompilationError`
carrying the full diagnostic list if and only if the pre-emit diagnostic
pass reports at least one diagnostic of any category; when the list is
empty it returns the module built from the transpiled text. -/
theorem transpile_diagnostic_gate (env : Env) (u : String) (s : LoaderState)
    (urlRec : URLRec) (text : String)
    (hurl : env.parseURL u = some urlRec)
    (hread : env.readFile urlRec.href = some text) :
    let sourceFilePath := env.fileURLToPath urlRec.href
    let compilerOptions : CompilerOptions :=
      { base := env.getTSConfig (dirname sourceFilePath),
        target := "ESNext", module := "ESNext" }
    let diagnostics := env.preEmitDiagnostics [sourceFilePath]
        { compilerOptions with typeRoots := some [] }
    (diagnostics ≠ [] →
      (transpileTypeScriptToModule env u s).1 = .error (.tsError diagnostics)) ∧
    (diagnostics = [] →
      (transpileTypeScriptToModule env u s).1 =
        .ok { id := s.nextId, url := u,
              sourceText := (env.transpileModule text compilerOptions).outputText }) := by
  dsimp only
  constructor
  · intro hne
    unfold transpileTypeScriptToModule
    rw [hurl]
    dsimp only
    rw [hread]
    dsimp only
    split
    · rfl
    · rename_i hlen
      exact absurd (List.length_eq_zero.mp (not_not.mp hlen)) hne
  · intro heq
    unfold transpileTypeScriptToModule
    rw [hurl]
    dsimp only
    rw [hread]
    dsimp only
    split
    · rename_i hlen
      rw [heq] at hlen
      exact absurd rfl hlen
    · rfl

/-- Witness for `transpile_diagnostic_gate`: `bad.ts` reports one
diagnostic and fails with it; `app.ts` reports none and compiles to the
transpiled text. -/
theorem transpile_diagnostic_gate_witness :
    (transpileTypeScriptToModule envW "file:///root/bad.ts" initState).1 =
        .error (.tsError [errDiag]) ∧
    (transpileTypeScriptToModule envW "file:///root/app.ts" initState).1 =
        .ok { id := 0, url := "file:///root/app.ts",
              sourceText := "js:const x: number = 1;" } :=
  ⟨(transpile_diagnostic_gate envW "file:///root/bad.ts" initState
      { protocol := "file:", pathname := "/root/bad.ts",
        href := "file:///root/bad.ts" }
      "const y: number = nope;" rfl rfl).1 (by decide),
   (transpile_diagnostic_gate envW "file:///root/app.ts" initState
      { protocol := "file:", pathname := "/root/app.ts",
        href := "file:///root/app.ts" }
      "const x: number = 1;" rfl rfl).2 rfl⟩

/-! ### Claim C5 -/

/-- The key list of the default export's property bag (empty when there is
no default export): the second operand of the claimed union. -/
def defaultPropKeys (link : JSObject) : List String :=
  match lookupProp link "default" with
  | some d => d.props.map Prod.fst
  | none => []

/-- Claim C5: for a native module import, the flattened exports bag holds
exactly the union of the module's named exports and the properties of its
default export, the named export's value wins on every shared key, and the
built module's export-name list is exactly the flattened key set, computed
eagerly at build time.  Hypothesis `hjs` is the JS invariant that a falsy
value has no own enumerable properties. -/
theorem linker_native_flattening (env : Env) (specifier : String)
    (p : ParentRef) (s0 : LoaderState) (r : ResolvedModule) (link0 : JSObject)
    (hres : resolve env specifier p.url none = .ok r)
    (hfmt : r.format = "commonjs" ∨ r.format = "module")
    (himp : env.importNative r.url = some link0)
    (hjs : ∀ d, lookupProp link0 "default" = some d → d.truthy = false →
      d.props = []) :
    (linker env specifier p s0).1 =
      .ok (.synthetic
        { id := s0.nextId
          exportNames := (flattenNamespace link0).map Prod.fst
          exportsBag := flattenNamespace link0 }) ∧
    (∀ k, k ∈ (flattenNamespace link0).map Prod.fst ↔
      k ∈ link0.map Prod.fst ∨ k ∈ defaultPropKeys link0) ∧
    (∀ k, k ∈ link0.map Prod.fst →
      lookupProp (flattenNamespace link0) k = lookupProp link0 k) := by
  refine ⟨?_, ?_, ?_⟩
  · rw [linker_native_eq env specifier p s0 r hres hfmt, himp]
  · intro k
    unfold flattenNamespace defaultPropKeys
    rcases hd : lookupProp link0 "default" with _ | d
    · simp
    · dsimp only
      cases ht : d.truthy
      · simp [hjs d hd ht]
      · simp only [if_pos rfl, if_true]
        rw [mem_keys_spreadMerge]
        exact or_comm
  · intro k hk
    unfold flattenNamespace
    rcases hd : lookupProp link0 "default" with _ | d
    · rfl
    · dsimp only
      cases ht : d.truthy
      · rfl
      · simp only [if_pos rfl, if_true]
        exact lookupProp_spreadMerge_right d.props link0 k hk

/-- The namespace object of the concrete native module used in witnesses:
a truthy default export with properties `a` and `c`, plus named exports
`a` and `b`. -/
def nativeNS : JSObject :=
  [("default", .mk true [("a", .mk true []), ("c", .mk false [])]),
   ("a", .mk false []), ("b", .mk true [])]

/-- Witness for `linker_native_flattening` on `nativeNS`: the linker
returns the flattened synthetic module, key `a` is in the union, and the
named export `a` wins over the default export's `a`. -/
theorem linker_native_flattening_witness :
    (linker envW "./native.mjs" mainRef initState).1 =
      .ok (.synthetic
        { id := 0
          exportNames := (flattenNamespace nativeNS).map Prod.fst
          exportsBag := flattenNamespace nativeNS }) ∧
    ("a" ∈ (flattenNamespace nativeNS).map Prod.fst ↔
      "a" ∈ nativeNS.map Prod.fst ∨ "a" ∈ defaultPropKeys nativeNS) ∧
    lookupProp (flattenNamespace nativeNS) "a" = lookupProp nativeNS "a" := by
  have H := linker_native_flattening envW "./native.mjs" mainRef initState
    { url := "file:///root/native.mjs", format := "module" } nativeNS
    rfl (Or.inr rfl) rfl
    (fun d hd htf => by cases hd; exact Bool.noConfusion htf)
  exact ⟨H.1, H.2.1 "a", H.2.2 "a" (by decide)⟩

/-! ### Claim C10 -/

/-- Claim C10: flattening of the default export happens only when the
default export is truthy, not merely present: with a present-but-falsy
default export the namespace is left unmerged, so the exports bag is the
namespace itself and the default export's properties do not appear. -/
theorem linker_falsy_default (env : Env) (specifier : String) (p : ParentRef)
    (s0 : LoaderState) (r : ResolvedModule) (link0 : JSObject) (d : JSValue)
    (hres : resolve env specifier p.url none = .ok r)
    (hfmt : r.format = "commonjs" ∨ r.format = "module")
    (himp : env.importNative r.url = some link0)
    (hd : lookupProp link0 "default" = some d)
    (hfalsy : d.truthy = false) :
    flattenNamespace link0 = link0 ∧
    (linker env specifier p s0).1 =
      .ok (.synthetic
        { id := s0.nextId, exportNames := link0.map Prod.fst,
          exportsBag := link0 }) := by
  have hflat : flattenNamespace link0 = link0 := by
    unfold flattenNamespace
    rw [hd]
    dsimp only
    rw [hfalsy]
    rfl
  refine ⟨hflat, ?_⟩
  rw [linker_native_eq env specifier p s0 r hres hfmt, himp]
  dsimp only
  rw [hflat]

/-- The namespace object with a falsy default export that nonetheless has
a property `x` (the model does not build in the JS falsy-values-have-no-
properties invariant, so the truthiness check is observable). -/
def falsyNS : JSObject :=
  [("default", .mk false [("x", .mk true [])]), ("b", .mk true [])]

/-- Witness for `linker_falsy_default` on `falsyNS`. -/
theorem linker_falsy_default_witness :
    flattenNamespace falsyNS = falsyNS ∧
    (linker envW "./falsy.mjs" mainRef initState).1 =
      .ok (.synthetic
        { id := 0, exportNames := falsyNS.map Prod.fst,
          exportsBag := falsyNS }) :=
  linker_falsy_default envW "./falsy.mjs" mainRef initState
    { url := "file:///root/falsy.mjs", format := "module" } falsyNS
    (.mk false [("x", .mk true [])])
    rfl (Or.inr rfl) rfl rfl rfl

/-! ### Claim C6 -/

/-- Claim C6: when building a typed-source module fails, the linker
propagates the error and no entry for that URL is inserted: the module
cache is unchanged, and a subsequent request for the same URL invokes the
compiler again. -/
theorem linker_failed_build_not_cached (env : Env) (specifier : String)
    (p : ParentRef) (s0 : LoaderState) (r : ResolvedModule)
    (e : LoaderError) (st : LoaderState)
    (hres : resolve env specifier p.url none = .ok r)
    (hfmt : r.format = "dynamic")
    (hmiss : mapLookup s0.moduleMap r.url = none)
    (hfail : transpileTypeScriptToModule env r.url s0 = (.error e, st)) :
    linker env specifier p s0 = (.error e, st) ∧
    st.moduleMap = s0.moduleMap ∧
    (linker env specifier p st).2.compileCalls = st.compileCalls ++ [r.url] := by
  have hmm : st.moduleMap = s0.moduleMap := by
    have h := transpile_moduleMap env r.url s0
    rw [hfail] at h
    exact h
  refine ⟨?_, hmm, ?_⟩
  · rw [linker_dynamic_eq env specifier p s0 r hres hfmt, hmiss, hfail]
  · rw [linker_dynamic_eq env specifier p st r hres hfmt, hmm, hmiss]
    dsimp only
    rcases ht2 : transpileTypeScriptToModule env r.url st with ⟨res, s2⟩
    have hcc : s2.compileCalls = st.compileCalls ++ [r.url] := by
      have h := transpile_compileCalls env r.url st
      rw [ht2] at h
      exact h
    cases res
    · exact hcc
    · exact hcc

def badURL : String := "file:///root/bad.ts"

/-- Loader state after the failed compile of `bad.ts`: one logged compiler
invocation, nothing cached. -/
def sBadW : LoaderState :=
  { moduleMap := [], nextId := 0, compileCalls := [badURL],
    activeRoot := some "/root" }

/-- Witness for `linker_failed_build_not_cached` on `./bad.ts`. -/
theorem linker_failed_build_not_cached_witness :
    linker envW "./bad.ts" mainRef initState =
        (.error (.tsError [errDiag]), sBadW) ∧
    sBadW.moduleMap = initState.moduleMap ∧
    (linker envW "./bad.ts" mainRef sBadW).2.compileCalls =
        sBadW.compileCalls ++ ["file:///root/bad.ts"] :=
  linker_failed_build_not_cached envW "./bad.ts" mainRef initState
    { url := "file:///root/bad.ts", format := "dynamic" }
    (.tsError [errDiag]) sBadW rfl rfl rfl rfl

/-! ### Claim C8 -/

/-- Claim C8: linking a native-format module neither writes nor reads the
module cache — cache and compile log are unchanged, and the outcome does
not depend on the cache contents — and every native link request builds a
fresh wrapper, so two sequential successful requests for the same URL
return distinct built-module objects. -/
theorem linker_native_frame (env : Env) (specifier : String) (p : ParentRef)
    (s0 : LoaderState) (r : ResolvedModule)
    (hres : resolve env specifier p.url none = .ok r)
    (hfmt : r.format = "commonjs" ∨ r.format = "module") :
    (linker env specifier p s0).2.moduleMap = s0.moduleMap ∧
    (linker env specifier p s0).2.compileCalls = s0.compileCalls ∧
    (∀ t : LoaderState, t.nextId = s0.nextId →
      (linker env specifier p t).1 = (linker env specifier p s0).1) ∧
    (∀ m1 m2 s1, linker env specifier p s0 = (.ok m1, s1) →
      (linker env specifier p s1).1 = .ok m2 → m1 ≠ m2) := by
  refine ⟨?_, ?_, ?_, ?_⟩
  · rw [linker_native_eq env specifier p s0 r hres hfmt]
    rcases env.importNative r.url with _ | link0 <;> rfl
  · rw [linker_native_eq env specifier p s0 r hres hfmt]
    rcases env.importNative r.url with _ | link0 <;> rfl
  · intro t ht
    rw [linker_native_eq env specifier p t r hres hfmt,
        linker_native_eq env specifier p s0 r hres hfmt]
    rcases env.importNative r.url with _ | link0
    · rfl
    · dsimp only
      rw [ht]
  · intro m1 m2 s1 h1 h2
    rw [linker_native_eq env specifier p s0 r hres hfmt] at h1
    rw [linker_native_eq env specifier p s1 r hres hfmt] at h2
    rcases hi : env.importNative r.url with _ | link0
    · rw [hi] at h1
      simp at h1
    · rw [hi] at h1 h2
      dsimp only at h1 h2
      simp only [Prod.mk.injEq, Except.ok.injEq] at h1
      obtain ⟨h1m, h1s⟩ := h1
      subst h1m
      subst h1s
      simp only [Except.ok.injEq] at h2
      subst h2
      intro heq
      simp only [BuiltModule.synthetic.injEq, SyntheticMod.mk.injEq] at heq
      omega

/-- The first synthetic wrapper built for `nativeNS`. -/
def natMod0 : SyntheticMod :=
  { id := 0, exportNames := (flattenNamespace nativeNS).map Prod.fst,
    exportsBag := flattenNamespace nativeNS }

/-- The second synthetic wrapper built for `nativeNS` (fresh object id). -/
def natMod1 : SyntheticMod :=
  { id := 1, exportNames := (flattenNamespace nativeNS).map Prod.fst,
    exportsBag := flattenNamespace nativeNS }

/-- Loader state after one native link: only the id counter moved. -/
def sNat1 : LoaderState :=
  { moduleMap := [], nextId := 1, compileCalls := [], activeRoot := none }

/-- Witness for `linker_native_frame` on `./native.mjs`. -/
theorem linker_native_frame_witness :
    (linker envW "./native.mjs" mainRef initState).2.moduleMap =
        initState.moduleMap ∧
    BuiltModule.synthetic natMod0 ≠ BuiltModule.synthetic natMod1 := by
  have H := linker_native_frame envW "./native.mjs" mainRef initState
    { url := "file:///root/native.mjs", format := "module" } rfl (Or.inr rfl)
  exact ⟨H.1, H.2.2.2 (BuiltModule.synthetic natMod0)
    (BuiltModule.synthetic natMod1) sNat1 rfl rfl⟩

/-! ### Claim C9 -/

/-- Claim C9: any failure reaching `dynamicInstantiate` — a compilation
error from the build step or any error from the link step (resolution and
link errors surface there) — is logged and terminates the process with
exit status zero; the entry point never rethrows and never exits with a
non-zero status. -/
theorem dynamicInstantiate_exit_policy (env : Env) (u : String)
    (s : LoaderState) :
    (∀ e s1, transpileTypeScriptToModule env u s = (.error e, s1) →
      dynamicInstantiate env u s = (.exited 0 e, s1)) ∧
    (∀ m s1 e s2, transpileTypeScriptToModule env u s = (.ok m, s1) →
      env.vmLink m s1 = (.error e, s2) →
      dynamicInstantiate env u s = (.exited 0 e, s2)) ∧
    (∀ c e s2, dynamicInstantiate env u s = (.exited c e, s2) → c = 0) := by
  refine ⟨?_, ?_, ?_⟩
  · intro e s1 h
    unfold dynamicInstantiate
    rw [h]
  · intro m s1 e s2 h hl
    unfold dynamicInstantiate
    rw [h]
    dsimp only
    rw [hl]
  · intro c e s2 h
    unfold dynamicInstantiate at h
    rcases ht : transpileTypeScriptToModule env u s with ⟨res, s1⟩
    rw [ht] at h
    cases res with
    | error e0 =>
      simp only [Prod.mk.injEq, InstantiateOutcome.exited.injEq] at h
      omega
    | ok m =>
      dsimp only at h
      rcases hl : env.vmLink m s1 with ⟨lres, s2h⟩
      rw [hl] at h
      cases lres with
      | error e0 =>
        simp only [Prod.mk.injEq, InstantiateOutcome.exited.injEq] at h
        omega
      | ok u0 =>
        simp at h

/-- Witness for `dynamicInstantiate_exit_policy`: the failing compile of
`bad.ts` makes the entry point log the compilation error and exit 0. -/
theorem dynamicInstantiate_exit_policy_witness :
    dynamicInstantiate envW "file:///root/bad.ts" initState =
      (.exited 0 (.tsError [errDiag]), sBadW) :=
  (dynamicInstantiate_exit_policy envW "file:///root/bad.ts" initState).1
    (.tsError [errDiag]) sBadW rfl

/-! ### Claim C7 -/

/-- Claim C7: every built typed-source module stored in or returned from
the module cache has its `url` field equal to the resolved URL string
under which it was cached and looked up: the linker preserves the
invariant on all cache entries, and the module it returns on a
typed-source resolution carries the resolved URL. -/
theorem linker_cache_url_invariant (env : Env) (specifier : String)
    (p : ParentRef) (s0 : LoaderState)
    (hinv : ∀ q ∈ s0.moduleMap, q.2.url = q.1) :
    (∀ q ∈ (linker env specifier p s0).2.moduleMap, q.2.url = q.1) ∧
    (∀ r m, resolve env specifier p.url none = .ok r → r.format = "dynamic" →
      (linker env specifier p s0).1 = .ok (.sourceText m) → m.url = r.url) := by
  rcases hr : resolve env specifier p.url none with e | r
  · rw [linker_resolve_error_eq env specifier p s0 e hr]
    refine ⟨hinv, ?_⟩
    intro r0 m hres _ _
    simp at hres
  · by_cases hcm : r.format = "commonjs" ∨ r.format = "module"
    · rw [linker_native_eq env specifier p s0 r hr hcm]
      rcases hi : env.importNative r.url with _ | link0
    

      · refine ⟨hinv, ?_⟩
        intro r0 m hres hfmt0 h1
        simp at h1
      · refine ⟨hinv, ?_⟩
        intro r0 m hres hfmt0 h1
        simp at h1
    · by_cases hdy : r.format = "dynamic"
      · rw [linker_dynamic_eq env specifier p s0 r hr hdy]
        rcases hc : mapLookup s0.moduleMap r.url with _ | c
        · rcases ht : transpileTypeScriptToModule env r.url s0 with ⟨res, st⟩
          have hstm : st.moduleMap = s0.moduleMap := by
            have h := transpile_moduleMap env r.url s0
            rw [ht] at h
            exact h
          cases res with
          | error e =>
            dsimp only
            refine ⟨?_, ?_⟩
            · intro q hq
              rw [hstm] at hq
              exact hinv q hq
            · intro r0 m hres hfmt0 h1
              simp at h1
          | ok nm =>
            have hurl : nm.url = r.url := transpile_ok_url ht
            dsimp only
            refine ⟨?_, ?_⟩
            · intro q hq
              rcases mem_mapSet hq with h | h
              · rw [h]
                exact hurl
              · rw [hstm] at h
                exact hinv q h
            · intro r0 m hres hfmt0 h1
              injection hres with hres
              subst hres
              simp only [Except.ok.injEq, BuiltModule.sourceText.injEq] at h1
              rw [← h1]
              exact hurl
        · refine ⟨hinv, ?_⟩
          intro r0 m hres hfmt0 h1
          injection hres with hres
          subst hres
          dsimp only at h1
          simp only [Except.ok.injEq, BuiltModule.sourceText.injEq] at h1
          rw [← h1]
          exact hinv (r.url, c) (mapLookup_mem hc)
      · rw [linker_invalid_eq env specifier p s0 r hr
          (fun h => hcm (Or.inl h)) (fun h => hcm (Or.inr h)) hdy]
        refine ⟨hinv, ?_⟩
        intro r0 m hres hfmt0 h1
        simp at h1

/-- Witness for `linker_cache_url_invariant`: the module returned and
cached for `./app.ts` carries the resolved URL. -/
theorem linker_cache_url_invariant_witness :
    appMod.url = "file:///root/app.ts" :=
  (linker_cache_url_invariant envW "./app.ts" mainRef initState
      (fun q hq => absurd hq (List.not_mem_nil q))).2
    { url := "file:///root/app.ts", format := "dynamic" } appMod rfl rfl rfl

end TSESNode
